import Mathlib

/-!
Verification of the Landlock sandbox wrapper (src/cmake/sandbox_wrapper.py).

The wrapper builds a filesystem access ruleset from built-in path sets and
three colon-delimited environment variables, applies it via the Landlock
kernel primitive, and then replaces the process image with the delegate
command given in `sys.argv[1:]`.

Shallow embedding conventions:
- A filesystem state is a predicate `String → Bool` giving `Path.exists()`.
- The environment is `String → Option String`; `os.environ.get(name, d)`
  becomes `envGet env name d`.
- Paths are strings; the only piece of `pathlib` normalisation that the
  wrapper can observe on its inputs is that `Path("")` renders as `"."`,
  captured by `pathOfString`.
- Diagnostic output is modelled as structured `LogLine` values (the spec
  places log formatting out of scope).
- `rules.apply()` is an external kernel call; `main` takes a boolean
  `applyOk` saying whether the call succeeds.  A failing call raises an
  uncaught Python exception, which terminates the interpreter with exit
  status 1 before any later statement runs.
-/

namespace SandboxWrapper

/-- Modelled from the spec: the module `src/cmake/landlock.py` (imported as
`landlock` and providing `FSAccess`) is not under `src/`.  Following spec
section 3, an access right is one of a small set-valued enumeration of
filesystem permissions. -/
inductive Right where
  | read
  | write
  | execute
  | list
  | create
  | delete
deriving DecidableEq, Fintype

/-- An `FSAccess` value is a set of rights (spec section 3: composable via
union and intersection). -/
abbrev FSAccess := Finset Right

/-- Modelled from the spec: the readonly preset covers read, list and
execute (spec section 2: "readonly (read/list/execute)"). -/
def FSAccess.readonly : FSAccess := {Right.read, Right.list, Right.execute}

/-- Modelled from the spec: the full preset holds all rights (spec
section 2: "full (all rights including write/create/delete)"). -/
def FSAccess.all : FSAccess := Finset.univ

/-- Modelled from the spec: the directory-only modifier, the rights that
operate on directory entries (list contents, create entries, delete
entries); spec section 4.1 calls it the "directory-only modifier" that
presets are intersected with. -/
def FSAccess.all_dir : FSAccess := {Right.list, Right.create, Right.delete}

/-- Modelled from the spec, section 4.1: the readonly+recursive access
value is the intersection of the readonly preset with the directory-only
modifier ("readonly rights applicable only when scope is
recursive-subtree"). -/
def FSAccess.readonlyRecursive : FSAccess := FSAccess.readonly ∩ FSAccess.all_dir

/-- A rule in the ruleset: a path together with the access granted to it,
as recorded by `Ruleset.allow(path, rules=access)`. -/
structure Rule where
  path : String
  access : FSAccess
deriving DecidableEq

/-- The accumulated ruleset, in accumulation order. -/
abbrev Ruleset := List Rule

/-- One diagnostic line on stderr.  Formatting is out of scope (spec
section 1), so lines are kept structured: the skip and allow messages of
`add_rules`, the `executing:` line, and the missing-delegate usage
error. -/
inductive LogLine where
  | skip (access : FSAccess) (path : String)
  | allow (path : String) (access : FSAccess)
  | executing (args : List String)
  | missingDelegate
deriving DecidableEq

/-- The environment: variable name to optional value. -/
abbrev Env := String → Option String

/-- `os.environ.get(name, default=d)`. -/
def envGet (env : Env) (name d : String) : String := (env name).getD d

/-- `pathlib.Path` applied to one split entry: the empty string denotes the
current directory (`str(Path("")) = "."`); other entries are kept as
written. -/
def pathOfString (s : String) : String := if s = "" then "." else s

/-- Python `str.split(sep)` for a one-character separator, on the list of
characters: splitting on every occurrence of the separator, keeping empty
fragments (`"a::b"` gives `["a", "", "b"]`, `":"` gives `["", ""]`). -/
def splitChars (sep : Char) : List Char → List (List Char)
  | [] => [[]]
  | c :: cs =>
    match splitChars sep cs with
    | [] => if c = sep then [[], []] else [[c]]
    | g :: gs => if c = sep then [] :: g :: gs else (c :: g) :: gs

/-- Python `str.split(":")`-style splitting of a string on a separator
character. -/
def splitString (sep : Char) (s : String) : List String :=
  (splitChars sep s.toList).map (fun l => String.mk l)

/-- `read_paths_envvar` (src/cmake/sandbox_wrapper.py lines 26-34): read a
colon delimited environment variable as a list of paths; an empty or
absent variable yields the empty list. -/
def read_paths_envvar (env : Env) (name : String) : List String :=
  let v := envGet env name ""
  if v = "" then [] else (splitString ':' v).map pathOfString

/-- `add_rules` (lines 36-45): for each path, skip it (with an optional
debug line) when it does not exist, otherwise append an allow rule (with
an optional debug line).  Returns the grown ruleset and the emitted
stderr lines. -/
def addRules (fs : String → Bool) (rules : Ruleset) (paths : List String)
    (access : FSAccess) (debug : Bool) : Ruleset × List LogLine :=
  match paths with
  | [] => (rules, [])
  | p :: rest =>
    if fs p then
      let out := addRules fs (rules ++ [⟨p, access⟩]) rest access debug
      (out.1, (if debug then [LogLine.allow p access] else []) ++ out.2)
    else
      let out := addRules fs rules rest access debug
      (out.1, (if debug then [LogLine.skip access p] else []) ++ out.2)

/-- `READONLY_GLOBAL_PATHS` (lines 12-19), in source literal order.  The
source holds them in a Python `set`, whose iteration order is not fixed;
order-insensitivity is proved separately. -/
def READONLY_GLOBAL_PATHS : List String :=
  ["/usr", "/bin", "/var", "/lib", "/lib32", "/lib64"]

/-- `READWRITE_GLOBAL_PATHS` (lines 22-24). -/
def READWRITE_GLOBAL_PATHS : List String := ["/tmp"]

/-- Python `str.lower()` on the character list (ASCII case folding, which
is all the truthy-token comparison can observe). -/
def asciiLower (s : String) : String := String.mk (s.toList.map Char.toLower)

/-- Lines 49-50: the debug toggle, truthy when the lowercased value of
`LANDLOCK_SANDBOX_DEBUG` (default `"false"`) is one of the listed
tokens. -/
def parseDebug (env : Env) : Bool :=
  (["true", "1", "t", "y", "yes"]).contains
    (asciiLower (envGet env "LANDLOCK_SANDBOX_DEBUG" "false"))

/-- The `LANDLOCK_SANDBOX_RO_DIRS` path list. -/
def roDirsList (env : Env) : List String :=
  read_paths_envvar env "LANDLOCK_SANDBOX_RO_DIRS"

/-- The `LANDLOCK_SANDBOX_RO_PATHS` path list. -/
def roPathsList (env : Env) : List String :=
  read_paths_envvar env "LANDLOCK_SANDBOX_RO_PATHS"

/-- The `LANDLOCK_SANDBOX_RW_PATHS` path list. -/
def rwPathsList (env : Env) : List String :=
  read_paths_envvar env "LANDLOCK_SANDBOX_RW_PATHS"

/-- The five `add_rules` calls of `__main__` (lines 52-58), parametrised by
the iteration orders `ro` and `rw` of the two built-in Python sets.
Returns the final ruleset and the concatenated stderr lines. -/
def mainStagesWith (ro rw : List String) (env : Env) (fs : String → Bool)
    (debug : Bool) : Ruleset × List LogLine :=
  let s1 := addRules fs [] ro FSAccess.readonly debug
  let s2 := addRules fs s1.1 rw FSAccess.all debug
  let s3 := addRules fs s2.1 (roDirsList env) (FSAccess.readonly ∩ FSAccess.all_dir) debug
  let s4 := addRules fs s3.1 (roPathsList env) FSAccess.readonly debug
  let s5 := addRules fs s4.1 (rwPathsList env) FSAccess.all debug
  (s5.1, s1.2 ++ s2.2 ++ s3.2 ++ s4.2 ++ s5.2)

/-- The ruleset the wrapper accumulates and passes to `rules.apply()`. -/
def mainRules (env : Env) (fs : String → Bool) : Ruleset :=
  (mainStagesWith READONLY_GLOBAL_PATHS READWRITE_GLOBAL_PATHS env fs (parseDebug env)).1

/-- How the wrapper process ends: a plain exit, or replacement of the
process image by `os.execvp(prog, args)`. -/
inductive Outcome where
  | exited (code : Nat)
  | execDelegate (prog : String) (args : List String)
deriving DecidableEq

/-- Observable result of one wrapper run: the ruleset installed by
`rules.apply()` (`none` when the call failed, so no policy is active),
the stderr lines, and how the process ended. -/
structure RunResult where
  appliedRules : Option Ruleset
  stderr : List LogLine
  outcome : Outcome
deriving DecidableEq

/-- `__main__` (lines 48-67): parse the debug flag, accumulate the five
rule groups, call `rules.apply()`, then check `len(sys.argv) < 2` and
either report the usage error and exit 1 or exec the delegate.  A failed
`apply` raises, terminating the interpreter with exit status 1; the
statements after it (the argv check included) never run in that case. -/
def main (env : Env) (fs : String → Bool) (applyOk : Bool)
    (argv : List String) : RunResult :=
  let debug := parseDebug env
  let st := mainStagesWith READONLY_GLOBAL_PATHS READWRITE_GLOBAL_PATHS env fs debug
  if applyOk then
    match argv with
    | _w :: prog :: args =>
      { appliedRules := some st.1
        stderr := st.2 ++ (if debug then [LogLine.executing (prog :: args)] else [])
        outcome := Outcome.execDelegate prog (prog :: args) }
    | _ =>
      { appliedRules := some st.1
        stderr := st.2 ++ [LogLine.missingDelegate]
        outcome := Outcome.exited 1 }
  else
    { appliedRules := none
      stderr := st.2
      outcome := Outcome.exited 1 }

/-- All path candidates of a run, in accumulation order, each paired with
the access the `__main__` block assigns to its source (lines 54-58). -/
def allCandidatesWith (ro rw : List String) (env : Env) : List (String × FSAccess) :=
  ro.map (fun p => (p, FSAccess.readonly))
    ++ rw.map (fun p => (p, FSAccess.all))
    ++ (roDirsList env).map (fun p => (p, FSAccess.readonly ∩ FSAccess.all_dir))
    ++ (roPathsList env).map (fun p => (p, FSAccess.readonly))
    ++ (rwPathsList env).map (fun p => (p, FSAccess.all))

theorem addRules_fst (fs : String → Bool) (rules : Ruleset) (paths : List String)
    (access : FSAccess) (debug : Bool) :
    (addRules fs rules paths access debug).1
      = rules ++ (paths.filter fs).map (fun p => Rule.mk p access) := by
  induction paths generalizing rules with
  | nil => simp [addRules]
  | cons p rest ih =>
    by_cases h : fs p = true
    · simp [addRules, h, ih, List.append_assoc]
    · simp [addRules, h, ih]

theorem addRules_snd (fs : String → Bool) (rules : Ruleset) (paths : List String)
    (access : FSAccess) (debug : Bool) :
    (addRules fs rules paths access debug).2
      = if debug then
          paths.map (fun p => if fs p then LogLine.allow p access else LogLine.skip access p)
        else [] := by
  induction paths generalizing rules with
  | nil => simp [addRules]
  | cons p rest ih =>
    cases debug <;> by_cases h : fs p = true <;> simp [addRules, h, ih]

theorem filter_map_pair (fs : String → Bool) (paths : List String) (access : FSAccess) :
    ((paths.map (fun p => (p, access))).filter (fun pa => fs pa.1)).map
        (fun pa => Rule.mk pa.1 pa.2)
      = (paths.filter fs).map (fun p => Rule.mk p access) := by
  induction paths with
  | nil => simp
  | cons p rest ih =>
    by_cases h : fs p = true <;> simp [h, ih]

theorem mainStagesWith_fst (ro rw : List String) (env : Env) (fs : String → Bool)
    (debug : Bool) :
    (mainStagesWith ro rw env fs debug).1
      = ((allCandidatesWith ro rw env).filter (fun pa => fs pa.1)).map
          (fun pa => Rule.mk pa.1 pa.2) := by
  simp [mainStagesWith, allCandidatesWith, addRules_fst, filter_map_pair,
    List.filter_append, List.map_append]

theorem mainStagesWith_snd (ro rw : List String) (env : Env) (fs : String → Bool)
    (debug : Bool) :
    (mainStagesWith ro rw env fs debug).2
      = if debug then
          (allCandidatesWith ro rw env).map
            (fun pa => if fs pa.1 then LogLine.allow pa.1 pa.2 else LogLine.skip pa.2 pa.1)
        else [] := by
  cases debug <;>
    simp [mainStagesWith, allCandidatesWith, addRules_snd, List.map_append,
      List.map_map, Function.comp_def]

/-- True exactly when the run ended in `os.execvp`. -/
def Outcome.isExecDelegate : Outcome → Bool
  | Outcome.execDelegate _ _ => true
  | _ => false

/-- C1 counterexample: with no trailing arguments (argv `["wrapper"]`) and a
filesystem where only `/tmp` exists, the wrapper does exit with status 1
and does print the diagnostic, but the sandbox ruleset (here the single
rule for `/tmp`) has already been applied: the usage check sits after
`rules.apply()`, so sandbox rules ARE installed, contrary to the claim. -/
theorem C1_counterexample :
    (main (fun _ => none) (fun p => p == "/tmp") true ["wrapper"]).outcome = Outcome.exited 1
    ∧ (main (fun _ => none) (fun p => p == "/tmp") true ["wrapper"]).stderr
        = [LogLine.missingDelegate]
    ∧ (main (fun _ => none) (fun p => p == "/tmp") true ["wrapper"]).appliedRules
        = some [Rule.mk "/tmp" FSAccess.all]
    ∧ ((main (fun _ => none) (fun p => p == "/tmp") true ["wrapper"]).appliedRules).isSome
        = true := by
  decide

/-- C1 (amended): invoked with zero trailing arguments, the wrapper writes
the usage diagnostic and exits with status 1, but only after the full
ruleset has been accumulated and the policy committed by `rules.apply()`:
the usage error is detected after the sandbox work, not before it. -/
theorem C1_usage_error_after_policy_commit :
    ∀ (env : Env) (fs : String → Bool) (argv : List String),
      argv.length < 2 →
        (main env fs true argv).outcome = Outcome.exited 1
        ∧ LogLine.missingDelegate ∈ (main env fs true argv).stderr
        ∧ (main env fs true argv).appliedRules = some (mainRules env fs) := by
  intro env fs argv hlen
  match argv with
  | [] => refine ⟨rfl, ?_, rfl⟩; simp [main]
  | [w] => refine ⟨rfl, ?_, rfl⟩; simp [main]
  | _ :: _ :: _ => simp at hlen; omega

/-- Witness for C1: the amended theorem applied to argv `["wrapper"]`. -/
theorem C1_usage_witness :
    (["wrapper"] : List String).length < 2
    ∧ ((main (fun _ => none) (fun _ => false) true ["wrapper"]).outcome = Outcome.exited 1
        ∧ LogLine.missingDelegate ∈ (main (fun _ => none) (fun _ => false) true ["wrapper"]).stderr
        ∧ (main (fun _ => none) (fun _ => false) true ["wrapper"]).appliedRules
            = some (mainRules (fun _ => none) (fun _ => false))) :=
  ⟨by decide,
    C1_usage_error_after_policy_commit (fun _ => none) (fun _ => false) ["wrapper"] (by decide)⟩

/-- C2: `add_rules` appends a rule for a candidate path if and only if the
path exists in the filesystem state; non-existent candidates contribute
nothing (and the function is total, so nothing is raised), and running the
accumulation again against the same filesystem state produces an identical
ruleset. -/
theorem C2_add_rules_existence_filter :
    ∀ (fs : String → Bool) (rules0 : Ruleset) (paths : List String)
      (access : FSAccess) (debug : Bool),
      (addRules fs rules0 paths access debug).1
          = rules0 ++ (paths.filter fs).map (fun p => Rule.mk p access)
      ∧ (∀ p : String,
          (Rule.mk p access ∈ (addRules fs [] paths access debug).1
            ↔ p ∈ paths ∧ fs p = true))
      ∧ (addRules fs rules0 paths access debug).1
          = (addRules fs rules0 paths access debug).1 := by
  intro fs rules0 paths access debug
  refine ⟨addRules_fst fs rules0 paths access debug, ?_, rfl⟩
  intro p
  simp [addRules_fst, List.mem_filter, Rule.mk.injEq, and_comm]

/-- C3: when the policy commit fails, the interpreter terminates with exit
status 1 (the uncaught exception) and the delegate is never executed. -/
theorem C3_apply_failure_fail_closed :
    ∀ (env : Env) (fs : String → Bool) (argv : List String),
      (main env fs false argv).outcome = Outcome.exited 1
      ∧ ((main env fs false argv).outcome).isExecDelegate = false := by
  intro env fs argv
  constructor <;> simp [main, Outcome.isExecDelegate]

/-- C4: the three environment lists map to exactly the specified access
values: `LANDLOCK_SANDBOX_RO_DIRS` entries to the readonly+recursive value
(the readonly preset intersected with the directory-only modifier),
`LANDLOCK_SANDBOX_RO_PATHS` entries to the readonly preset, and
`LANDLOCK_SANDBOX_RW_PATHS` entries to the full preset; the
readonly+recursive value consists of readonly rights of directory scope. -/
theorem C4_envvar_access_mapping :
    ∀ env : Env,
      allCandidatesWith READONLY_GLOBAL_PATHS READWRITE_GLOBAL_PATHS env
        = READONLY_GLOBAL_PATHS.map (fun p => (p, FSAccess.readonly))
          ++ READWRITE_GLOBAL_PATHS.map (fun p => (p, FSAccess.all))
          ++ (roDirsList env).map (fun p => (p, FSAccess.readonlyRecursive))
          ++ (roPathsList env).map (fun p => (p, FSAccess.readonly))
          ++ (rwPathsList env).map (fun p => (p, FSAccess.all))
      ∧ FSAccess.readonlyRecursive ∩ FSAccess.readonly = FSAccess.readonlyRecursive
      ∧ FSAccess.readonlyRecursive ∩ FSAccess.all_dir = FSAccess.readonlyRecursive := by
  intro env
  exact ⟨rfl, by decide, by decide⟩

/-- C5 counterexample: for the value `"a::b"`, resolution yields three
candidates `["a", ".", "b"]` — one per split entry, the empty entry
included as `"."` — whereas the list has only two non-empty entries, so
the claimed one-candidate-per-non-empty-entry correspondence is false. -/
theorem C5_counterexample :
    read_paths_envvar
        (fun n => if n == "LANDLOCK_SANDBOX_RO_PATHS" then some "a::b" else none)
        "LANDLOCK_SANDBOX_RO_PATHS" = ["a", ".", "b"]
    ∧ (splitString ':' "a::b").filter (fun s => !(s == "")) = ["a", "b"]
    ∧ ((read_paths_envvar
          (fun n => if n == "LANDLOCK_SANDBOX_RO_PATHS" then some "a::b" else none)
          "LANDLOCK_SANDBOX_RO_PATHS").length
        == ((splitString ':' "a::b").filter (fun s => !(s == ""))).length)
        = false := by
  decide

/-- C5 (amended): resolution preserves declaration order and yields exactly
one path candidate per entry of the colon-split — empty entries included,
each becoming `"."` — and an empty or absent variable yields the empty
list rather than an error. -/
theorem C5_resolution_per_entry :
    ∀ (env : Env) (name : String),
      read_paths_envvar env name
          = (if envGet env name "" = "" then []
             else splitString ':' (envGet env name "")).map pathOfString
      ∧ (read_paths_envvar env name).length
          = (if envGet env name "" = "" then ([] : List String)
             else splitString ':' (envGet env name "")).length
      ∧ (∀ i : Nat,
          (read_paths_envvar env name)[i]?
            = ((if envGet env name "" = "" then ([] : List String)
                else splitString ':' (envGet env name ""))[i]?).map pathOfString) := by
  intro env name
  by_cases h : envGet env name "" = "" <;>
    simp [read_paths_envvar, h]

/-- C6: the built-in readonly set is exactly
{/usr, /bin, /lib, /lib32, /lib64, /var} and each member that exists ends
up in the applied ruleset with the readonly preset; the built-in
read-write set is exactly {/tmp} and each member that exists ends up with
the full preset. -/
theorem C6_builtin_path_sets :
    (∀ p : String, p ∈ READONLY_GLOBAL_PATHS ↔
      (p = "/usr" ∨ p = "/bin" ∨ p = "/lib" ∨ p = "/lib32" ∨ p = "/lib64" ∨ p = "/var"))
    ∧ (∀ p : String, p ∈ READWRITE_GLOBAL_PATHS ↔ p = "/tmp")
    ∧ (∀ (env : Env) (fs : String → Bool) (p : String),
        p ∈ READONLY_GLOBAL_PATHS → fs p = true →
          Rule.mk p FSAccess.readonly ∈ mainRules env fs)
    ∧ (∀ (env : Env) (fs : String → Bool) (p : String),
        p ∈ READWRITE_GLOBAL_PATHS → fs p = true →
          Rule.mk p FSAccess.all ∈ mainRules env fs) := by
  refine ⟨?_, ?_, ?_, ?_⟩
  · intro p
    simp [READONLY_GLOBAL_PATHS]
    tauto
  · intro p
    simp [READWRITE_GLOBAL_PATHS]
  · intro env fs p hp hfs
    rw [mainRules, mainStagesWith_fst]
    refine List.mem_map.mpr ⟨(p, FSAccess.readonly), List.mem_filter.mpr ⟨?_, hfs⟩, rfl⟩
    unfold allCandidatesWith
    exact List.mem_append_left _ (List.mem_append_left _ (List.mem_append_left _
      (List.mem_append_left _ (List.mem_map.mpr ⟨p, hp, rfl⟩))))
  · intro env fs p hp hfs
    rw [mainRules, mainStagesWith_fst]
    refine List.mem_map.mpr ⟨(p, FSAccess.all), List.mem_filter.mpr ⟨?_, hfs⟩, rfl⟩
    unfold allCandidatesWith
    exact List.mem_append_left _ (List.mem_append_left _ (List.mem_append_left _
      (List.mem_append_right _ (List.mem_map.mpr ⟨p, hp, rfl⟩))))

/-- Witness for C6: with a filesystem where `/usr` and `/tmp` exist, the
applied ruleset grants `/usr` the readonly preset and `/tmp` the full
preset. -/
theorem C6_builtin_witness :
    Rule.mk "/usr" FSAccess.readonly
        ∈ mainRules (fun _ => none) (fun p => p == "/usr" || p == "/tmp")
    ∧ Rule.mk "/tmp" FSAccess.all
        ∈ mainRules (fun _ => none) (fun p => p == "/usr" || p == "/tmp") :=
  ⟨C6_builtin_path_sets.2.2.1 (fun _ => none) (fun p => p == "/usr" || p == "/tmp")
      "/usr" (by decide) (by decide),
    C6_builtin_path_sets.2.2.2 (fun _ => none) (fun p => p == "/usr" || p == "/tmp")
      "/tmp" (by decide) (by decide)⟩

/-- C7: rule accumulation is deterministic and independent of the
iteration order of the two built-in Python sets and of the debug flag:
any two runs over the same environment and filesystem state produce the
same rules up to permutation, i.e. identical as a set of rules. -/
theorem C7_rule_accumulation_deterministic :
    ∀ (ro1 ro2 rw1 rw2 : List String) (env : Env) (fs : String → Bool) (d1 d2 : Bool),
      ro1.Perm READONLY_GLOBAL_PATHS → ro2.Perm READONLY_GLOBAL_PATHS →
      rw1.Perm READWRITE_GLOBAL_PATHS → rw2.Perm READWRITE_GLOBAL_PATHS →
      ((mainStagesWith ro1 rw1 env fs d1).1).Perm ((mainStagesWith ro2 rw2 env fs d2).1) := by
  intro ro1 ro2 rw1 rw2 env fs d1 d2 h1 h2 h3 h4
  rw [mainStagesWith_fst, mainStagesWith_fst]
  refine List.Perm.map _ (List.Perm.filter _ ?_)
  unfold allCandidatesWith
  exact (((((h1.trans h2.symm).map _).append
    ((h3.trans h4.symm).map _)).append
      (List.Perm.refl _)).append (List.Perm.refl _)).append (List.Perm.refl _)

/-- Witness for C7: reversing the iteration order of the built-in readonly
set and flipping the debug flag leaves the accumulated rules a
permutation of the original run's rules. -/
theorem C7_determinism_witness :
    ((mainStagesWith ["/lib64", "/lib32", "/lib", "/var", "/bin", "/usr"] ["/tmp"]
        (fun _ => none) (fun p => p == "/usr" || p == "/tmp") true).1).Perm
      ((mainStagesWith READONLY_GLOBAL_PATHS READWRITE_GLOBAL_PATHS
        (fun _ => none) (fun p => p == "/usr" || p == "/tmp") false).1) :=
  C7_rule_accumulation_deterministic _ _ _ _ _ _ _ _
    (by decide) (by decide) (by decide) (by decide)

/-- C8: the full access preset contains every right of the readonly
preset. -/
theorem C8_full_contains_readonly :
    ∀ r : Right, r ∈ FSAccess.readonly → r ∈ FSAccess.all := by
  intro r _
  exact Finset.mem_univ r

/-- Witness for C8: the read right is in the readonly preset and hence in
the full preset. -/
theorem C8_superset_witness :
    Right.read ∈ FSAccess.readonly ∧ Right.read ∈ FSAccess.all :=
  ⟨by decide, C8_full_contains_readonly Right.read (by decide)⟩

/-- C9: the debug toggle read from `LANDLOCK_SANDBOX_DEBUG` fully
determines the diagnostic output of a successful run: when enabled there
is exactly one line per candidate (a skip line when it does not exist, an
allow line when it does) followed by the `executing:` line for the
delegate command; when disabled, `add_rules` and the handoff emit
nothing. -/
theorem C9_debug_toggle_output :
    ∀ (env : Env) (fs : String → Bool) (w prog : String) (args : List String),
      (main env fs true (w :: prog :: args)).stderr
        = if parseDebug env then
            (allCandidatesWith READONLY_GLOBAL_PATHS READWRITE_GLOBAL_PATHS env).map
              (fun pa => if fs pa.1 then LogLine.allow pa.1 pa.2 else LogLine.skip pa.2 pa.1)
            ++ [LogLine.executing (prog :: args)]
          else [] := by
  intro env fs w prog args
  cases hd : parseDebug env <;> simp [main, hd, mainStagesWith_snd]

/-- C10: the debug flag does not influence the accumulated rules — for any
filesystem state, starting ruleset, candidate list and access value,
`add_rules` yields the same ruleset whether debug is on or off. -/
theorem C10_debug_noninterference :
    ∀ (fs : String → Bool) (rules0 : Ruleset) (paths : List String)
      (access : FSAccess) (d1 d2 : Bool),
      (addRules fs rules0 paths access d1).1 = (addRules fs rules0 paths access d2).1 := by
  intro fs rules0 paths access d1 d2
  rw [addRules_fst, addRules_fst]

end SandboxWrapper
